import Mathlib

/-!
# Verification of the `water_usage` CLI logger

Shallow embedding of `src/index.js`: a daily water-usage logger that
prompts for a whole-number litre amount, upserts a record keyed by
calendar day into a JSON array file, prints a comparison against two
baselines, and on Mondays reports the week-over-week change.

Modelling conventions:
* A calendar day is an integer: the number of days since the JavaScript
  epoch day 1970-01-01 (a Thursday).  `Date` comparison in the source
  compares timestamps of local midnights, which orders days exactly like
  these integers, and `setDate(getDate() - k)` moves exactly `k`
  calendar days back.  Canonical ISO `yyyy-mm-dd` strings are in
  order-preserving bijection with these integers, so string equality of
  canonical dates is integer equality.
* JavaScript numbers are modelled as `ℚ`; `NaN` is modelled by `none`
  in `Option ℚ`, and arithmetic on `Option ℚ` propagates `none` the way
  JS arithmetic propagates `NaN`.
* A JSON value sitting in an `amount` field is modelled by `JVal`
  (`JSON.parse` never produces `NaN` or `undefined`; a missing field
  reads as `undefined`).
-/

set_option autoImplicit false

namespace WaterUsage

/-- A JavaScript value that can sit in the `amount` field of a record:
`undefined` (missing field), `null`, a boolean, a (finite) number, or a
string. -/
inductive JVal where
  | undef : JVal
  | null : JVal
  | bool (b : Bool) : JVal
  | num (q : ℚ) : JVal
  | str (s : String) : JVal
  deriving DecidableEq, Repr

/-- JavaScript truthiness of a `JVal`: `undefined`, `null`, `false`, `0`
and the empty string are falsy, everything else is truthy. -/
def truthy : JVal → Bool
  | .undef => false
  | .null => false
  | .bool b => b
  | .num q => !(q == 0)
  | .str s => !(s == "")

/-- `true` exactly for a `JVal` of JS number type. -/
def isNum : JVal → Bool
  | .num _ => true
  | _ => false

/-- `true` for the amounts on which `Number(amount || 0)` agrees with
the spec's "missing or non-numeric treated as zero" reading: a JS
number, or any falsy value (`undefined` — i.e. a missing field —
`null`, `false`, `0`, the empty string), which `|| 0` replaces by the
number `0`.  The remaining (truthy non-number) amounts are where the
code deviates from the spec — see the C1 counterexample. -/
def amountOK (a : JVal) : Bool :=
  isNum a || !truthy a

/-- Numeric value of a digit character. -/
def digitVal (c : Char) : ℕ := c.toNat - 48

/-- Value of a list of decimal digit characters, most significant
first. -/
def digitsVal (cs : List Char) : ℕ :=
  cs.foldl (fun a c => 10 * a + digitVal c) 0

/-- JavaScript `Number(s)` for a string `s`, restricted to optionally
signed decimal literals (`digits`, `digits.digits`, `.digits`,
`digits.`); every other non-empty trimmed string coerces to `NaN`
(`none`), and the empty or all-whitespace string coerces to `0`.
(Hexadecimal and exponent literals, which coerce to numbers in JS, are
outside the shapes this repository ever stores, so they are mapped to
`NaN` here; no claim depends on them.) -/
def jsStringToNumber (s : String) : Option ℚ :=
  let t := s.trim
  if t = "" then some 0
  else
    let cs := t.toList
    let signBody : ℚ × List Char :=
      match cs with
      | '-' :: rest => (-1, rest)
      | '+' :: rest => (1, rest)
      | _ => (1, cs)
    let sign := signBody.1
    let body := signBody.2
    if body.isEmpty then none
    else
      match body.splitOn '.' with
      | [intPart] =>
          if intPart.all Char.isDigit then some (sign * digitsVal intPart) else none
      | [intPart, fracPart] =>
          if intPart.isEmpty && fracPart.isEmpty then none
          else if intPart.all Char.isDigit && fracPart.all Char.isDigit then
            some (sign * (digitsVal intPart + digitsVal fracPart / 10 ^ fracPart.length))
          else none
      | _ => none

/-- JavaScript `Number(v)` coercion of a `JVal`; `none` is `NaN`. -/
def jsToNumber : JVal → Option ℚ
  | .undef => none
  | .null => some 0
  | .bool b => some (if b then 1 else 0)
  | .num q => some q
  | .str s => jsStringToNumber s

/-- Addition on JS numbers with `NaN` (`none`) propagation. -/
def optAdd : Option ℚ → Option ℚ → Option ℚ
  | some a, some b => some (a + b)
  | _, _ => none

/-- Subtraction on JS numbers with `NaN` (`none`) propagation. -/
def optSub : Option ℚ → Option ℚ → Option ℚ
  | some a, some b => some (a - b)
  | _, _ => none

/-- Multiplication on JS numbers with `NaN` (`none`) propagation. -/
def optMul : Option ℚ → Option ℚ → Option ℚ
  | some a, some b => some (a * b)
  | _, _ => none

/-- Division on JS numbers with `NaN` (`none`) propagation.  Division by
zero is mapped to `none`; the source only divides after guarding the
divisor against `0`, so the `Infinity` outcomes are unreachable. -/
def optDiv : Option ℚ → Option ℚ → Option ℚ
  | some a, some b => if b = 0 then none else some (a / b)
  | _, _ => none

/-- A usage record `{ date, amount }` as read from the JSON file.  The
`date` is the parsed calendar day (days since epoch); the `amount` is an
arbitrary JSON value. -/
structure UsageRecord where
  date : ℤ
  amount : JVal
  deriving DecidableEq, Repr

/-- An inclusive range of calendar days (`{ start, end }` in the
source). -/
structure WeekRange where
  start : ℤ
  «end» : ℤ
  deriving DecidableEq, Repr

/-- The filter predicate of `sumEntriesInRange`:
`entryDate >= range.start && entryDate <= range.end`. -/
def inRange (range : WeekRange) (d : ℤ) : Bool :=
  range.start ≤ d && d ≤ range.«end»

/-- `sumEntriesInRange(entries, range)` from `src/index.js`: filter the
entries whose date lies in the inclusive range, then
`reduce((sum, e) => sum + Number(e.amount || 0), 0)`.  The `|| 0`
replaces a falsy amount by the number `0` before the `Number`
coercion. -/
def sumEntriesInRange (entries : List UsageRecord) (range : WeekRange) : Option ℚ :=
  (entries.filter (fun e => inRange range e.date)).foldl
    (fun sum e => optAdd sum (jsToNumber (if truthy e.amount then e.amount else .num 0)))
    (some 0)

/-- `getWeekRange(today, weeksAgo)` from `src/index.js`:
`end = today - 1 - 7*(weeksAgo - 1)`, `start = end - 6`. -/
def getWeekRange (today : ℤ) (weeksAgo : ℤ) : WeekRange :=
  ⟨today - 1 - 7 * (weeksAgo - 1) - 6, today - 1 - 7 * (weeksAgo - 1)⟩

/-- JavaScript `Date.prototype.getDay` for a day counted from the epoch:
day `0` (1970-01-01) was a Thursday (`getDay() == 4`), the weekday index
advances by one per day, and Sunday is `0`. -/
def getDay (d : ℤ) : ℤ :=
  (d + 4) % 7

/-- `percentDiff(value, baseline)` from `src/index.js`. -/
def percentDiff (value baseline : ℚ) : ℚ :=
  if baseline = 0 then 0 else (value - baseline) / baseline * 100

/-- JavaScript `Math.round`: round to nearest integer, ties towards
positive infinity, i.e. `⌊x + 1/2⌋`. -/
def jsRound (q : ℚ) : ℤ :=
  ⌊q + 1 / 2⌋

/-- `Math.round` lifted to JS numbers; `Math.round(NaN)` is `NaN`. -/
def optRound : Option ℚ → Option ℤ
  | some q => some (jsRound q)
  | none => none

/-- `formatDiff(diff)` from `src/index.js`: round, prepend `+` when the
rounded value is positive (the minus sign of a negative value comes from
rendering the integer itself), append the `% vs baseline` suffix. -/
def formatDiff (diff : ℚ) : String :=
  (if jsRound diff > 0 then "+" else "") ++ toString (jsRound diff) ++ "% vs baseline"

/-- JavaScript `Number.prototype.toFixed(1)` on an exact rational:
round `10·q` to the nearest integer (ties towards the larger candidate)
and print with one decimal digit.  The source only ever applies it to
exact sums of whole-litre amounts. -/
def toFixed1 (q : ℚ) : String :=
  let n : ℤ := ⌊q * 10 + 1 / 2⌋
  let m : ℕ := n.natAbs
  (if n < 0 then "-" else "") ++ toString (m / 10) ++ "." ++ toString (m % 10)

/-- `toFixed(1)` on a JS number; `(NaN).toFixed(1)` is the string
`NaN`. -/
def optToFixed1 : Option ℚ → String
  | some q => toFixed1 q
  | none => "NaN"

/-- Template rendering `${Math.abs(change)}` of the rounded change;
`Math.abs(NaN)` is `NaN` and renders as the string `NaN`. -/
def absStr : Option ℤ → String
  | some z => toString z.natAbs
  | none => "NaN"

/-- The direction label of `maybePrintWeeklyChange`:
`change === 0 ? 'no change' : change > 0 ? 'increase' : 'decrease'`
(`NaN` compares false on both tests and falls to `decrease`). -/
def changeDirection : Option ℤ → String
  | some z => if z = 0 then "no change" else if 0 < z then "increase" else "decrease"
  | none => "decrease"

/-- `maybePrintWeeklyChange()` from `src/index.js`, as the list of lines
it prints (each `console.log` call is one list element; the leading
newline of the header is part of its string).  The stored entries and
the current day are explicit arguments standing for `loadEntries()` and
`startOfDay(new Date())`. -/
def maybePrintWeeklyChange (entries : List UsageRecord) (today : ℤ) : List String :=
  if getDay today ≠ 1 then []
  else
    let lastWeekTotal := sumEntriesInRange entries (getWeekRange today 1)
    let prevWeekTotal := sumEntriesInRange entries (getWeekRange today 2)
    let header := "\nWeekly change (last week vs week before):"
    if prevWeekTotal == some 0 && lastWeekTotal == some 0 then
      [header, "  No data for the past two weeks yet."]
    else if prevWeekTotal == some 0 then
      [header, "  No data for the prior week to compare against."]
    else
      let change := optRound (optMul (optDiv (optSub lastWeekTotal prevWeekTotal) prevWeekTotal) (some 100))
      [header,
       "  Total last week: " ++ optToFixed1 lastWeekTotal ++ " L",
       "  Total prior week: " ++ optToFixed1 prevWeekTotal ++ " L",
       "  Change: " ++ absStr change ++ "% " ++ changeDirection change]

/-- `findIndex((e) => e.date === today)` from `saveEntry`, as an
`Option`-valued index (`none` models the `-1` result).  Equality of
canonical ISO date strings is equality of the underlying days. -/
def findIndexDate : List UsageRecord → ℤ → Option ℕ
  | [], _ => none
  | e :: es, d => if e.date = d then some 0 else (findIndexDate es d).map (· + 1)

/-- `saveEntry(amount)` from `src/index.js`, with the loaded entries and
today's day as explicit arguments: build `{ date: today, amount }`,
replace the first record with today's date in place if one exists,
otherwise append; return the new list (the content written back to the
file) together with the returned entry. -/
def saveEntry (entries : List UsageRecord) (today : ℤ) (amount : ℚ) :
    List UsageRecord × UsageRecord :=
  let entry : UsageRecord := ⟨today, .num amount⟩
  match findIndexDate entries today with
  | some i => (entries.set i entry, entry)
  | none => (entries ++ [entry], entry)

/-- A parsed JSON document, as far as `loadEntries` inspects it: either
an array of records or a value of one of the other JSON kinds (whose
contents `loadEntries` never looks at). -/
inductive JsonVal where
  | arr (es : List UsageRecord) : JsonVal
  | obj : JsonVal
  | str (s : String) : JsonVal
  | num (q : ℚ) : JsonVal
  | bool (b : Bool) : JsonVal
  | null : JsonVal
  deriving DecidableEq, Repr

/-- The state of the storage file as `loadEntries` can encounter it:
absent (`readFileSync` throws), present but not valid JSON
(`JSON.parse` throws), or valid JSON. -/
inductive FileData where
  | missing : FileData
  | malformed : FileData
  | json (v : JsonVal) : FileData
  deriving DecidableEq, Repr

/-- `loadEntries()` from `src/index.js`: return the parsed array, `[]`
when the parsed document is not an array (`Array.isArray` guard), and
`[]` when reading or parsing throws (the `catch` arm). -/
def loadEntries : FileData → List UsageRecord
  | .json (.arr es) => es
  | _ => []

/-- The whole-number test `/^\d+$/.test(trimmed)` from `promptForUsage`:
non-empty and consisting of decimal digits only. -/
def wholeNumberTest (s : String) : Bool :=
  !s.isEmpty && s.toList.all Char.isDigit

/-- The answer handler of `promptForUsage()` from `src/index.js`: trim
the answer, reject it with the fixed error message unless it passes the
whole-number test, otherwise resolve with `parseFloat(trimmed)` (which,
on a pure digit string, is its decimal value). -/
def promptForUsage (answer : String) : Except String ℚ :=
  let trimmed := answer.trim
  if wholeNumberTest trimmed then .ok (digitsVal trimmed.toList)
  else .error ("Please enter a whole number of litres, e.g. 42")

/-- One invocation of `run()` from `src/index.js`, restricted to its
effect on the stored collection: on a valid answer the amount is saved
(exit code 0, no error message); on a rejected answer the `catch` arm
reports `Error: <message>` and exits with code 1, leaving the stored
collection untouched.  The daily and weekly printing have no effect on
the store and are modelled by their own functions. -/
def runModel (entries : List UsageRecord) (today : ℤ) (answer : String) :
    ℕ × List UsageRecord × Option String :=
  match promptForUsage answer with
  | .ok amount => (0, (saveEntry entries today amount).1, none)
  | .error msg => (1, entries, some ("Error: " ++ msg))

/-- Modelled from the spec's words (for the refinement comparison of
claim C1 only): the amount of a record with "a missing or non-numeric
amount" "treated as zero". -/
def specAmount : JVal → ℚ
  | .num q => q
  | _ => 0

/-- Modelled from the spec's words (for the refinement comparison of
claim C1 only): "sums `amount` over all records whose date falls within
`[range.start, range.end]` inclusive; treats a missing or non-numeric
amount as zero; returns 0 for an empty match set". -/
def sumInRangeSpec (entries : List UsageRecord) (range : WeekRange) : ℚ :=
  ((entries.filter (fun e => inRange range e.date)).map (fun e => specAmount e.amount)).sum

/-- "At most one record per distinct calendar day" (the spec's Entry
Store invariant). -/
def NoDupDates (l : List UsageRecord) : Prop :=
  l.Pairwise (fun a b => a.date ≠ b.date)

/-! ## Theorems -/

/-- C5: `percentDiff(value, baseline)` equals `0` when the baseline is
`0` and `(value - baseline) / baseline * 100` otherwise; in particular
`percentDiff(b, b) = 0` for every baseline `b` and `percentDiff(v, 0) = 0`
for every value `v`. -/
theorem percentDiff_spec (v b : ℚ) :
    percentDiff v 0 = 0 ∧ percentDiff b b = 0 ∧
    (b = 0 → percentDiff v b = 0) ∧
    (b ≠ 0 → percentDiff v b = (v - b) / b * 100) := by
  refine ⟨if_pos rfl, ?_, fun h => by simp [percentDiff, h], fun h => if_neg h⟩
  by_cases hb : b = 0 <;> simp [percentDiff, hb]

/-- Witness for C5 at `value = 45`, `baseline = 150`. -/
theorem percentDiff_spec_witness :
    percentDiff 45 150 = (45 - 150) / 150 * 100 :=
  (percentDiff_spec 45 150).2.2.2 (by decide)

/-- C2: for a Monday `today`, `lastWeekRange = getWeekRange(today, 1)`
is the 7 consecutive days ending on `today - 1` and
`prevWeekRange = getWeekRange(today, 2)` is the 7 consecutive days
ending on `today - 8`; the two ranges are disjoint, each spans exactly
7 days, and `prevWeekRange.end + 1 = lastWeekRange.start`. -/
theorem getWeekRange_monday_spec (t : ℤ) (_hmon : getDay t = 1) :
    (getWeekRange t 1).«end» = t - 1 ∧ (getWeekRange t 1).start = (t - 1) - 6 ∧
    (getWeekRange t 2).«end» = t - 8 ∧ (getWeekRange t 2).start = (t - 8) - 6 ∧
    (getWeekRange t 1).«end» - (getWeekRange t 1).start + 1 = 7 ∧
    (getWeekRange t 2).«end» - (getWeekRange t 2).start + 1 = 7 ∧
    (getWeekRange t 2).«end» + 1 = (getWeekRange t 1).start ∧
    (∀ d : ℤ, ¬(inRange (getWeekRange t 1) d = true ∧ inRange (getWeekRange t 2) d = true)) := by
  refine ⟨by simp only [getWeekRange]; omega, by simp only [getWeekRange]; omega,
    by simp only [getWeekRange]; omega, by simp only [getWeekRange]; omega,
    by simp only [getWeekRange]; omega, by simp only [getWeekRange]; omega,
    by simp only [getWeekRange]; omega, ?_⟩
  intro d ⟨h1, h2⟩
  simp only [inRange, getWeekRange, Bool.and_eq_true, decide_eq_true_eq] at h1 h2
  omega

/-- Witness for C2 at the Monday `today = 25` (day 25 since the epoch,
`getDay 25 = 1`). -/
theorem getWeekRange_monday_spec_witness :
    (getWeekRange 25 2).«end» + 1 = (getWeekRange 25 1).start :=
  (getWeekRange_monday_spec 25 (by decide)).2.2.2.2.2.2.1

/-- C8: the displayed baseline comparison rounds the percentage to the
nearest whole percent; a positive rounded value gets a leading `+`, a
negative one is rendered with its own minus sign (so the first character
is `-`), and zero is rendered without any sign; `formatDiff` of
`percentDiff(45, 150)` is `-70% vs baseline` and of
`percentDiff(150, 150)` is `0% vs baseline`. -/
theorem formatDiff_sign_spec (diff : ℚ) :
    (jsRound diff = 0 → formatDiff diff = "0% vs baseline") ∧
    (0 < jsRound diff → formatDiff diff = "+" ++ toString (jsRound diff) ++ "% vs baseline") ∧
    (jsRound diff < 0 → formatDiff diff = toString (jsRound diff) ++ "% vs baseline" ∧
      (formatDiff diff).data.head? = some '-') ∧
    formatDiff (percentDiff 45 150) = "-70% vs baseline" ∧
    formatDiff (percentDiff 150 150) = "0% vs baseline" := by
  refine ⟨fun h => by simp [formatDiff, h]; rfl, fun h => by simp [formatDiff, h], fun h => ?_,
    by with_unfolding_all decide, by with_unfolding_all decide⟩
  have hng : ¬ jsRound diff > 0 := by omega
  obtain ⟨m, hm⟩ : ∃ m, jsRound diff = Int.negSucc m := by
    cases hr : jsRound diff with
    | ofNat k =>
        rw [hr] at h
        exact absurd h (Int.not_lt.mpr (Int.ofNat_nonneg k))
    | negSucc m => exact ⟨m, rfl⟩
  constructor
  · simp [formatDiff, hng]
  · simp only [formatDiff, if_neg hng, hm]
    rfl

/-- The percentage difference of 45 litres against the 150-litre
baseline rounds to the negative value `-70`. -/
theorem percentDiff_45_150_round_neg : jsRound (percentDiff 45 150) < 0 := by
  with_unfolding_all decide

/-- Witness for C8 at `diff = percentDiff 45 150`, whose rounded value
`-70` is negative. -/
theorem formatDiff_sign_spec_witness :
    formatDiff (percentDiff 45 150) = toString (jsRound (percentDiff 45 150)) ++ "% vs baseline" :=
  ((formatDiff_sign_spec (percentDiff 45 150)).2.2.1 percentDiff_45_150_round_neg).1

/-- C7: `loadEntries` returns the persisted sequence when the file holds
a JSON array, and returns the empty sequence when the file is missing or
its content fails to parse, rather than raising an error (the function
is total on every file state). -/
theorem loadEntries_total_recovery :
    loadEntries .missing = [] ∧ loadEntries .malformed = [] ∧
    ∀ es : List UsageRecord, loadEntries (.json (.arr es)) = es :=
  ⟨rfl, rfl, fun _ => rfl⟩

/-- C10: when the file parses as valid JSON that is not an array (an
object, string, number, boolean or null), `loadEntries` returns the
empty list, exactly as for unparseable content, so its result is always
a list of records. -/
theorem loadEntries_nonArray_empty (s : String) (q : ℚ) (b : Bool) :
    loadEntries (.json .obj) = [] ∧ loadEntries (.json (.str s)) = [] ∧
    loadEntries (.json (.num q)) = [] ∧ loadEntries (.json (.bool b)) = [] ∧
    loadEntries (.json .null) = [] ∧
    loadEntries (.json .obj) = loadEntries .malformed :=
  ⟨rfl, rfl, rfl, rfl, rfl, rfl⟩

/-- The summand of the reduce in `sumEntriesInRange`, on a record whose
amount is a JS number or falsy, is the spec-side amount: a falsy amount
(a missing field, `null`, `false`, `0` or the empty string) is replaced
by the literal `0` before the `Number` coercion, and a number passes
through `Number` unchanged. -/
theorem amountOK_term_eq (a : JVal) (hok : amountOK a = true) :
    jsToNumber (if truthy a then a else .num 0) = some (specAmount a) := by
  cases a with
  | undef => rfl
  | null => rfl
  | bool b =>
    cases b with
    | false => rfl
    | true => simp [amountOK, isNum, truthy] at hok
  | num q => by_cases hq : q = 0 <;> simp [truthy, jsToNumber, specAmount, hq]
  | str s =>
    have hs : s = "" := by
      by_contra hs
      simp [amountOK, isNum, truthy, hs] at hok
    simp [hs, truthy, jsToNumber, specAmount]

/-- The reduce of `sumEntriesInRange`, over a list of records whose
amounts are all JS numbers or falsy, is the plain rational sum of the
spec-side amounts (numbers kept, falsy values counted as zero). -/
theorem foldl_optAdd_amountOK (l : List UsageRecord) (a : ℚ)
    (h : ∀ e ∈ l, amountOK e.amount = true) :
    l.foldl (fun sum e => optAdd sum (jsToNumber (if truthy e.amount then e.amount else .num 0)))
        (some a)
      = some (a + (l.map (fun e => specAmount e.amount)).sum) := by
  induction l generalizing a with
  | nil => simp
  | cons e es ih =>
    rw [List.foldl_cons, amountOK_term_eq e.amount (h e (List.mem_cons_self e es)),
      List.map_cons, List.sum_cons]
    have hinit : optAdd (some a) (some (specAmount e.amount)) =
        some (a + specAmount e.amount) := rfl
    rw [hinit, ih (a + specAmount e.amount) (fun e' he' => h e' (List.mem_cons_of_mem e he'))]
    simp [add_assoc]

/-- C1 (amended): over records whose in-range amounts are JS numbers or
falsy, `sumEntriesInRange` returns exactly the sum that the spec
describes: the sum of the amounts of exactly the records whose date
lies in `[range.start, range.end]` inclusive, where a falsy amount —
in particular a missing one — is treated as zero; it returns `0` when
no record falls in the range, and `0` on the empty record list.  The
amendment: a record in range whose amount is truthy but not a number
is coerced with `Number()` instead of being treated as zero, and for a
non-numeric string that yields `NaN`, which drives the whole sum to
`NaN` — see the counterexample. -/
theorem sumEntriesInRange_numeric_spec (entries : List UsageRecord) (range : WeekRange)
    (h : ∀ e ∈ entries, inRange range e.date = true → amountOK e.amount = true) :
    sumEntriesInRange entries range = some (sumInRangeSpec entries range) ∧
    ((∀ e ∈ entries, inRange range e.date = false) →
      sumEntriesInRange entries range = some 0) ∧
    sumEntriesInRange [] range = some 0 := by
  refine ⟨?_, ?_, rfl⟩
  · rw [sumEntriesInRange, sumInRangeSpec,
      foldl_optAdd_amountOK _ _
        (fun e he => h e (List.mem_filter.mp he).1 (List.mem_filter.mp he).2),
      zero_add]
  · intro hall
    have hnil : entries.filter (fun e => inRange range e.date) = [] := by
      rw [List.filter_eq_nil_iff]
      intro e he
      simp [hall e he]
    rw [sumEntriesInRange, hnil]
    rfl

/-- Counterexample to C1 as stated: a single in-range record whose
amount is the non-numeric string `abc` makes `sumEntriesInRange` return
`NaN` (`none`), not the zero-treated sum `0` that the spec describes. -/
theorem sumEntriesInRange_spec_counterexample :
    sumEntriesInRange [⟨0, .str ("abc")⟩] ⟨0, 0⟩ ≠
      some (sumInRangeSpec [⟨0, .str ("abc")⟩] ⟨0, 0⟩) := by
  with_unfolding_all decide

/-- Witness for C1 (amended) on a concrete list with an in-range
numeric record, an in-range record with a missing (falsy) amount, and
an out-of-range record. -/
theorem sumEntriesInRange_numeric_spec_witness :
    sumEntriesInRange [⟨3, .num 40⟩, ⟨4, .undef⟩, ⟨20, .num 7⟩] ⟨0, 6⟩ =
      some (sumInRangeSpec [⟨3, .num 40⟩, ⟨4, .undef⟩, ⟨20, .num 7⟩] ⟨0, 6⟩) :=
  (sumEntriesInRange_numeric_spec [⟨3, .num 40⟩, ⟨4, .undef⟩, ⟨20, .num 7⟩] ⟨0, 6⟩ (by decide)).1

/-- A single in-range record whose amount field is missing sums to `0`:
the falsy amount is replaced by `0` before the `Number` coercion. -/
theorem sumEntriesInRange_missing_amount_zero :
    sumEntriesInRange [⟨0, .undef⟩] ⟨0, 0⟩ = some 0 := by
  with_unfolding_all decide

/-- C6: an answer is accepted exactly when its trimmed form is a
non-empty string of decimal digits; every other answer makes the run
report the fixed error message `Error: Please enter a whole number of
litres, e.g. 42`, exit with code 1, and leave the stored collection
unchanged (no write happens). -/
theorem promptForUsage_validation (entries : List UsageRecord) (today : ℤ) (answer : String) :
    ((∃ n, promptForUsage answer = .ok n) ↔
      (answer.trim ≠ "" ∧ ∀ c ∈ answer.trim.toList, c.isDigit = true)) ∧
    (¬(answer.trim ≠ "" ∧ ∀ c ∈ answer.trim.toList, c.isDigit = true) →
      runModel entries today answer =
        (1, entries, some ("Error: Please enter a whole number of litres, e.g. 42"))) := by
  have hchar : wholeNumberTest answer.trim = true ↔
      (answer.trim ≠ "" ∧ ∀ c ∈ answer.trim.toList, c.isDigit = true) := by
    rw [wholeNumberTest, Bool.and_eq_true, Bool.not_eq_true', List.all_eq_true]
    constructor
    · rintro ⟨h1, h2⟩
      refine ⟨fun hemp => ?_, h2⟩
      rw [hemp] at h1
      exact Bool.noConfusion h1
    · rintro ⟨h1, h2⟩
      refine ⟨?_, h2⟩
      rw [← Bool.not_eq_true, String.isEmpty_iff]
      exact h1
  constructor
  · rw [← hchar]
    constructor
    · rintro ⟨n, hn⟩
      by_contra hw
      rw [promptForUsage] at hn
      simp only [Bool.not_eq_true] at hw
      rw [if_neg (by simp [hw])] at hn
      exact Except.noConfusion hn
    · intro hw
      exact ⟨digitsVal answer.trim.toList, by rw [promptForUsage, if_pos hw]⟩
  · intro hno
    have hw : wholeNumberTest answer.trim = false := by
      rw [← Bool.not_eq_true, hchar]
      exact hno
    rw [runModel, promptForUsage, if_neg (by simp [hw])]
    rfl

/-- The string `12.5` does not trim to a non-empty string of decimal
digits. -/
theorem twelvePointFive_not_digits :
    ¬((("12.5") : String).trim ≠ "" ∧ ∀ c ∈ (("12.5") : String).trim.toList, c.isDigit = true) := by
  with_unfolding_all decide

/-- Witness for C6: the malformed answer `12.5` is rejected with the
fixed message, exit code 1, and an unchanged store. -/
theorem promptForUsage_validation_witness :
    runModel [⟨0, .num 5⟩] 0 ("12.5") =
      (1, [⟨0, .num 5⟩], some ("Error: Please enter a whole number of litres, e.g. 42")) :=
  (promptForUsage_validation [⟨0, .num 5⟩] 0 ("12.5")).2 twelvePointFive_not_digits

/-- Unfolding of the upsert on a non-empty list: a head with today's
date is replaced in place, otherwise the head is kept and the tail is
upserted. -/
theorem saveEntry_fst_cons (r : UsageRecord) (rs : List UsageRecord) (t : ℤ) (n : ℚ) :
    (saveEntry (r :: rs) t n).1 =
      if r.date = t then (⟨t, .num n⟩ : UsageRecord) :: rs
      else r :: (saveEntry rs t n).1 := by
  by_cases h : r.date = t
  · simp [saveEntry, findIndexDate, h]
  · rw [if_neg h]
    cases hj : findIndexDate rs t with
    | none => simp [saveEntry, findIndexDate, h, hj]
    | some j => simp [saveEntry, findIndexDate, h, hj]

/-- The record returned by `saveEntry` is always `{date: today, amount}`. -/
theorem saveEntry_snd (l : List UsageRecord) (t : ℤ) (n : ℚ) :
    (saveEntry l t n).2 = ⟨t, .num n⟩ := by
  rw [saveEntry]
  cases findIndexDate l t <;> rfl

/-- Every member of the upserted list is the new entry or an original
member. -/
theorem mem_saveEntry (l : List UsageRecord) (t : ℤ) (n : ℚ) (b : UsageRecord)
    (hb : b ∈ (saveEntry l t n).1) : b = ⟨t, .num n⟩ ∨ b ∈ l := by
  induction l with
  | nil =>
    rw [saveEntry, findIndexDate] at hb
    rcases List.mem_singleton.mp hb with rfl
    exact Or.inl rfl
  | cons r rs ih =>
    rw [saveEntry_fst_cons] at hb
    by_cases h : r.date = t
    · rw [if_pos h] at hb
      rcases List.mem_cons.mp hb with rfl | hmem
      · exact Or.inl rfl
      · exact Or.inr (List.mem_cons_of_mem r hmem)
    · rw [if_neg h] at hb
      rcases List.mem_cons.mp hb with rfl | hmem
      · exact Or.inr (List.mem_cons_self b rs)
      · rcases ih hmem with he | hin
        · exact Or.inl he
        · exact Or.inr (List.mem_cons_of_mem r hin)

/-- Under the one-record-per-day invariant, filtering the upserted list
for today's date yields exactly the new entry. -/
theorem saveEntry_filter_today (l : List UsageRecord) (t : ℤ) (n : ℚ)
    (hinv : NoDupDates l) :
    (saveEntry l t n).1.filter (fun e => e.date == t) = [⟨t, .num n⟩] := by
  induction l with
  | nil =>
    rw [saveEntry, findIndexDate]
    simp [List.filter]
  | cons r rs ih =>
    rw [saveEntry_fst_cons]
    rcases List.pairwise_cons.mp hinv with ⟨hhead, htail⟩
    by_cases h : r.date = t
    · rw [if_pos h, List.filter_cons_of_pos (by simp)]
      have hnil : rs.filter (fun e => e.date == t) = [] := by
        rw [List.filter_eq_nil_iff]
        intro e he
        simp only [beq_iff_eq]
        rw [← h]
        exact fun hc => hhead e he hc.symm
      rw [hnil]
    · rw [if_neg h, List.filter_cons_of_neg (by simp [h])]
      exact ih htail

/-- The upsert preserves the one-record-per-day invariant. -/
theorem saveEntry_noDupDates (l : List UsageRecord) (t : ℤ) (n : ℚ)
    (hinv : NoDupDates l) : NoDupDates (saveEntry l t n).1 := by
  induction l with
  | nil =>
    rw [saveEntry, findIndexDate]
    exact List.pairwise_singleton _ _
  | cons r rs ih =>
    rw [saveEntry_fst_cons]
    rcases List.pairwise_cons.mp hinv with ⟨hhead, htail⟩
    by_cases h : r.date = t
    · rw [if_pos h]
      refine List.pairwise_cons.mpr ⟨?_, htail⟩
      intro b hb
      show t ≠ b.date
      rw [← h]
      exact hhead b hb
    · rw [if_neg h]
      refine List.pairwise_cons.mpr ⟨?_, ih htail⟩
      intro b hb
      rcases mem_saveEntry rs t n b hb with rfl | hin
      · exact h
      · exact hhead b hin

/-- Upserting the same day and amount twice gives the same list as
upserting it once. -/
theorem saveEntry_idem (l : List UsageRecord) (t : ℤ) (n : ℚ) :
    (saveEntry (saveEntry l t n).1 t n).1 = (saveEntry l t n).1 := by
  induction l with
  | nil =>
    show (saveEntry [⟨t, .num n⟩] t n).1 = [⟨t, .num n⟩]
    rw [saveEntry_fst_cons, if_pos rfl]
  | cons r rs ih =>
    rw [saveEntry_fst_cons]
    by_cases h : r.date = t
    · rw [if_pos h, saveEntry_fst_cons, if_pos rfl]
    · rw [if_neg h, saveEntry_fst_cons, if_neg h, ih]

/-- C4: starting from a list with at most one record per calendar day,
upserting today's amount twice in succession yields a list that holds
exactly one record dated today, carrying exactly the given amount, with
the invariant intact; the second upsert changes nothing (idempotent
overwrite), and the entry built and returned is `{date: today, amount}`. -/
theorem saveEntry_upsert_idempotent (l : List UsageRecord) (t : ℤ) (n : ℚ)
    (hinv : NoDupDates l) :
    (saveEntry (saveEntry l t n).1 t n).1.filter (fun e => e.date == t) = [⟨t, .num n⟩] ∧
    NoDupDates (saveEntry (saveEntry l t n).1 t n).1 ∧
    (saveEntry (saveEntry l t n).1 t n).1 = (saveEntry l t n).1 ∧
    (saveEntry l t n).2 = ⟨t, .num n⟩ := by
  refine ⟨?_, ?_, saveEntry_idem l t n, saveEntry_snd l t n⟩
  · rw [saveEntry_idem]
    exact saveEntry_filter_today l t n hinv
  · rw [saveEntry_idem]
    exact saveEntry_noDupDates l t n hinv

/-- Witness for C4 on a concrete two-day store and amount 42. -/
theorem saveEntry_upsert_idempotent_witness :
    (saveEntry (saveEntry [⟨2, .num 7⟩, ⟨5, .null⟩] 2 42).1 2 42).1.filter
        (fun e => e.date == 2) = [⟨2, .num 42⟩] :=
  (saveEntry_upsert_idempotent [⟨2, .num 7⟩, ⟨5, .null⟩] 2 42 (by simp [NoDupDates])).1

/-- A found index is a real index of a record dated today. -/
theorem findIndexDate_some (l : List UsageRecord) (t : ℤ) (i : ℕ)
    (h : findIndexDate l t = some i) : ∃ r, l[i]? = some r ∧ r.date = t := by
  induction l generalizing i with
  | nil => exact Option.noConfusion h
  | cons e es ih =>
    have hdef : findIndexDate (e :: es) t =
        if e.date = t then some 0 else (findIndexDate es t).map (· + 1) := rfl
    rw [hdef] at h
    by_cases he : e.date = t
    · rw [if_pos he] at h
      have h0 : (0 : ℕ) = i := Option.some.inj h
      subst h0
      exact ⟨e, List.getElem?_cons_zero, he⟩
    · rw [if_neg he] at h
      cases hj : findIndexDate es t with
      | none => rw [hj] at h; exact Option.noConfusion h
      | some j =>
        rw [hj, Option.map_some'] at h
        have hji : j + 1 = i := Option.some.inj h
        subst hji
        rcases ih j hj with ⟨r1, hr1, hr1d⟩
        refine ⟨r1, ?_, hr1d⟩
        rw [List.getElem?_cons_succ]
        exact hr1

/-- C9: the upsert leaves every record whose date differs from today
unchanged and at its original position: with no record for today the
new entry is appended at the end of the unchanged list, with a record
for today at index `i` only that cell is overwritten (`set`), and in
either case every original index holding a record of another date still
holds exactly that record. -/
theorem saveEntry_frame (l : List UsageRecord) (t : ℤ) (n : ℚ) :
    (findIndexDate l t = none → (saveEntry l t n).1 = l ++ [⟨t, .num n⟩]) ∧
    (∀ i : ℕ, findIndexDate l t = some i → (saveEntry l t n).1 = l.set i ⟨t, .num n⟩) ∧
    (∀ (j : ℕ) (r : UsageRecord), l[j]? = some r → r.date ≠ t →
      (saveEntry l t n).1[j]? = some r) := by
  refine ⟨fun h => by simp [saveEntry, h], fun i h => by simp [saveEntry, h], ?_⟩
  intro j r hj hr
  cases hfd : findIndexDate l t with
  | none =>
    have hjlen : j < l.length := (List.getElem?_eq_some_iff.mp hj).1
    rw [saveEntry]
    rw [hfd]
    show (l ++ [(⟨t, .num n⟩ : UsageRecord)])[j]? = some r
    rw [List.getElem?_append_left hjlen]
    exact hj
  | some i =>
    rcases findIndexDate_some l t i hfd with ⟨r0, hr0, hr0d⟩
    have hij : i ≠ j := by
      intro he
      rw [he, hj] at hr0
      rcases Option.some.inj hr0 with rfl
      exact hr hr0d
    rw [saveEntry]
    rw [hfd]
    show (l.set i (⟨t, .num n⟩ : UsageRecord))[j]? = some r
    rw [List.getElem?_set_ne hij]
    exact hj

/-- Witness for C9: appending on a fresh date, overwriting on an
existing one, and the frame fact at an untouched index. -/
theorem saveEntry_frame_witness :
    (saveEntry [⟨5, .num 1⟩] 7 2).1 = [⟨5, .num 1⟩] ++ [⟨7, .num 2⟩] :=
  (saveEntry_frame [⟨5, .num 1⟩] 7 2).1 (by decide)

/-- C3: on a Monday invocation whose two week sums are the numbers `l`
(last week) and `p` (prior week): with both sums zero the report says
there is no data for the past two weeks; with only the prior sum zero it
says there is no data for the prior week to compare against (and no
division is performed — the change expression never appears); otherwise
the reported change is `round((l - p) / p * 100)`, labelled `increase`
when positive, `decrease` when negative and `no change` when zero, with
both totals rendered to one decimal place and the change rendered as its
absolute value next to the label. -/
theorem maybePrintWeeklyChange_policy (entries : List UsageRecord) (today : ℤ) (l p : ℚ)
    (hmon : getDay today = 1)
    (hl : sumEntriesInRange entries (getWeekRange today 1) = some l)
    (hp : sumEntriesInRange entries (getWeekRange today 2) = some p) :
    (l = 0 → p = 0 → maybePrintWeeklyChange entries today =
      ["\nWeekly change (last week vs week before):",
       "  No data for the past two weeks yet."]) ∧
    (p = 0 → l ≠ 0 → maybePrintWeeklyChange entries today =
      ["\nWeekly change (last week vs week before):",
       "  No data for the prior week to compare against."]) ∧
    (p ≠ 0 → maybePrintWeeklyChange entries today =
      ["\nWeekly change (last week vs week before):",
       "  Total last week: " ++ toFixed1 l ++ " L",
       "  Total prior week: " ++ toFixed1 p ++ " L",
       "  Change: " ++ toString (jsRound ((l - p) / p * 100)).natAbs ++ "% " ++
         (if jsRound ((l - p) / p * 100) = 0 then "no change"
          else if 0 < jsRound ((l - p) / p * 100) then "increase" else "decrease")]) := by
  refine ⟨?_, ?_, ?_⟩
  · rintro rfl rfl
    simp [maybePrintWeeklyChange, hmon, hl, hp]
  · intro hp0 hl0
    subst hp0
    simp [maybePrintWeeklyChange, hmon, hl, hp, hl0]
  · intro hp0
    simp [maybePrintWeeklyChange, hmon, hl, hp, hp0, optSub, optDiv, optMul, optRound,
      absStr, changeDirection, optToFixed1]

/-- Week sum of the spec's scenario store over `getWeekRange 25 1` (the
days 18–24): only the record of day 18 falls inside, so the sum is
50. -/
theorem weekly_scenario_last :
    sumEntriesInRange [⟨11, .num 40⟩, ⟨18, .num 50⟩] (getWeekRange 25 1) = some 50 := by
  with_unfolding_all decide

/-- Week sum of the spec's scenario store over `getWeekRange 25 2` (the
days 11–17): only the record of day 11 falls inside, so the sum is
40. -/
theorem weekly_scenario_prev :
    sumEntriesInRange [⟨11, .num 40⟩, ⟨18, .num 50⟩] (getWeekRange 25 2) = some 40 := by
  with_unfolding_all decide

/-- Witness for C3 on the spec's scenario: Monday `today = 25`, last
week total 50, prior week total 40. -/
theorem maybePrintWeeklyChange_policy_witness :
    maybePrintWeeklyChange [⟨11, .num 40⟩, ⟨18, .num 50⟩] 25 =
      ["\nWeekly change (last week vs week before):",
       "  Total last week: " ++ toFixed1 50 ++ " L",
       "  Total prior week: " ++ toFixed1 40 ++ " L",
       "  Change: " ++ toString (jsRound ((50 - 40) / 40 * 100)).natAbs ++ "% " ++
         (if jsRound ((50 - 40) / 40 * 100) = 0 then "no change"
          else if 0 < jsRound ((50 - 40) / 40 * 100) then "increase" else "decrease")] :=
  (maybePrintWeeklyChange_policy [⟨11, .num 40⟩, ⟨18, .num 50⟩] 25 50 40
    (by decide) weekly_scenario_last weekly_scenario_prev).2.2 (by decide)

/-- The spec's §8 scenario, fully evaluated: records
`[{2024-01-01, 40}, {2024-01-08, 50}]` seen on the Monday a week later
(modelled as days 11, 18 and 25) report a 25% increase. -/
theorem weekly_scenario_increase :
    maybePrintWeeklyChange [⟨11, .num 40⟩, ⟨18, .num 50⟩] 25 =
      ["\nWeekly change (last week vs week before):",
       "  Total last week: 50.0 L",
       "  Total prior week: 40.0 L",
       "  Change: 25% increase"] := by
  with_unfolding_all decide

/-- The spec's §8 no-prior-data scenario, fully evaluated: prior week
total 0, last week total 30 reports the no-prior-data line and performs
no division. -/
theorem weekly_scenario_no_prior :
    maybePrintWeeklyChange [⟨18, .num 30⟩] 25 =
      ["\nWeekly change (last week vs week before):",
       "  No data for the prior week to compare against."] := by
  with_unfolding_all decide

/-- A non-Monday invocation prints no weekly summary at all. -/
theorem weekly_not_monday :
    maybePrintWeeklyChange [⟨18, .num 30⟩] 26 = [] := by
  with_unfolding_all decide

/-- A surrounding-whitespace answer is accepted after trimming: ` 42 `
saves a record of 42 litres for today and exits with code 0. -/
theorem runModel_trimmed_accept :
    runModel [] 3 (" 42 ") = (0, [⟨3, .num 42⟩], none) := by
  with_unfolding_all decide

/-- The answer `abc` is rejected just as `12.5` is: exit code 1, fixed
message, untouched store. -/
theorem runModel_rejects_abc :
    runModel [⟨0, .num 5⟩] 0 ("abc") =
      (1, [⟨0, .num 5⟩], some ("Error: Please enter a whole number of litres, e.g. 42")) := by
  with_unfolding_all decide

end WaterUsage
